import Mathlib

/-!
Verification of the MockDrift core engine (`mockdrift_core.py`): a shallow
embedding of the drift-detection code (schema reference resolution, schema
lookup, mock and cassette checking, SARIF rendering) together with theorems
about the behaviour that the design document ascribes to it.

Parsed YAML/JSON documents are modelled by the inductive type `Json`
(an in-memory tree of mappings, sequences and scalars).  Python exceptions
are modelled by `Except PyErr`; external primitives that the code merely
calls (the `jsonschema` validator, `json.loads`, `urlparse`) are taken as
function parameters, matching their boundary contracts.
-/

/-- A parsed YAML/JSON document: nested mappings, sequences and scalars.
Mappings keep their key order, as Python dicts do. -/
inductive Json where
  | null : Json
  | bool : Bool → Json
  | int : Int → Json
  | str : String → Json
  | arr : List Json → Json
  | obj : List (String × Json) → Json

/-- The Python exceptions the embedded code can raise. -/
inductive PyErr where
  | attrError : PyErr
  | typeError : PyErr
  | keyError : PyErr
  | recursionError : PyErr

/-- First value stored under a key in an association list (Python dict read). -/
def alGet? {α : Type} : List (String × α) → String → Option α
  | [], _ => none
  | (k', v) :: rest, k => if k' == k then some v else alGet? rest k

/-- Whether a key occurs in an association list (Python `k in d`). -/
def hasKey {α : Type} (kvs : List (String × α)) (k : String) : Bool :=
  kvs.any (fun kv => kv.1 == k)

/-- Replace the value stored under the first occurrence of a key
(Python dict assignment to an existing key keeps its position). -/
def setFirst : List (String × Json) → String → Json → List (String × Json)
  | [], _, _ => []
  | (k', v') :: rest, k, v =>
    if k' == k then (k', v) :: rest else (k', v') :: setFirst rest k v

/-- Python truthiness of a parsed value (`bool(x)`). -/
def pyFalsy : Json → Bool
  | .null => true
  | .bool b => !b
  | .int n => n == 0
  | .str s => s == ""
  | .arr xs => xs.isEmpty
  | .obj kvs => kvs.isEmpty

/-- Python `d.get(k, default)`: reads a mapping, raises `AttributeError`
on anything that is not a mapping. -/
def pyGetD : Json → String → Json → Except PyErr Json
  | .obj kvs, k, d => .ok ((alGet? kvs k).getD d)
  | _, _, _ => .error .attrError

/-- Python `d.get(k)` (default `None` reported as `none`). -/
def pyGet? : Json → String → Except PyErr (Option Json)
  | .obj kvs, k => .ok (alGet? kvs k)
  | _, _ => .error .attrError

/-- Python `d.values()`. -/
def pyValues : Json → Except PyErr (List Json)
  | .obj kvs => .ok (kvs.map Prod.snd)
  | _ => .error .attrError

/-- Whether a list of characters starts with another. -/
def charPrefixOf : List Char → List Char → Bool
  | [], _ => true
  | _ :: _, [] => false
  | a :: as, b :: bs => a == b && charPrefixOf as bs

/-- Whether a list of characters occurs contiguously inside another. -/
def charSub (sub : List Char) : List Char → Bool
  | [] => sub.isEmpty
  | c :: rest => charPrefixOf sub (c :: rest) || charSub sub rest

/-- Substring test, as Python `sub in hay` on strings. -/
def strContains (hay sub : String) : Bool :=
  charSub sub.data hay.data

/-- Python `k in x` for a string key: key test on mappings, membership on
sequences, substring on strings, `TypeError` otherwise. -/
def pyContains (k : String) : Json → Except PyErr Bool
  | .obj kvs => .ok (hasKey kvs k)
  | .arr xs => .ok (xs.any (fun x => match x with | .str s => s == k | _ => false))
  | .str s => .ok (strContains s k)
  | _ => .error .typeError

/-- Python `x[k]` for a string key. -/
def pyIndex (j : Json) (k : String) : Except PyErr Json :=
  match j with
  | .obj kvs =>
    match alGet? kvs k with
    | some v => .ok v
    | none => .error .keyError
  | _ => .error .typeError

/-- Last `/`-separated segment of a string (Python `s.split("/")[-1]`). -/
def lastSeg (s : String) : String :=
  String.mk ((s.data.reverse.takeWhile (fun c => c != '/')).reverse)

/-- ASCII lower-casing of one character. -/
def charLower (c : Char) : Char :=
  if 'A' ≤ c ∧ c ≤ 'Z' then Char.ofNat (c.toNat + 32) else c

/-- ASCII upper-casing of one character. -/
def charUpper (c : Char) : Char :=
  if 'a' ≤ c ∧ c ≤ 'z' then Char.ofNat (c.toNat - 32) else c

/-- ASCII lower-casing, as Python `str.lower` on the method names used here. -/
def strLower (s : String) : String := String.mk (s.data.map charLower)

/-- ASCII upper-casing, as Python `str.upper` on the method names used here. -/
def strUpper (s : String) : String := String.mk (s.data.map charUpper)

/-- Resolve each value of an association list with a fallible function,
keeping keys and order (the dict comprehension in `_resolve`). -/
def mapSnd (f : Json → Except PyErr Json) :
    List (String × Json) → Except PyErr (List (String × Json))
  | [] => .ok []
  | (k, v) :: rest =>
    match f v with
    | .error e => .error e
    | .ok v2 =>
      match mapSnd f rest with
      | .error e => .error e
      | .ok rest2 => .ok ((k, v2) :: rest2)

/-- The `properties` rewrite of `_resolve` on a mapping without `$ref`:
resolve every value of the `properties` mapping, keeping everything else. -/
def propsStep (res : Json → Except PyErr Json) (kvs : List (String × Json)) :
    Except PyErr (List (String × Json)) :=
  if hasKey kvs "properties" then
    match (alGet? kvs "properties").getD .null with
    | .obj pkvs =>
      match mapSnd res pkvs with
      | .error e => .error e
      | .ok pkvs2 => .ok (setFirst kvs "properties" (.obj pkvs2))
    | _ => .error .attrError
  else .ok kvs

/-- The `items` rewrite of `_resolve` on a mapping without `$ref`. -/
def itemsStep (res : Json → Except PyErr Json) (kvs1 : List (String × Json)) :
    Except PyErr Json :=
  if hasKey kvs1 "items" then
    match res ((alGet? kvs1 "items").getD .null) with
    | .error e => .error e
    | .ok iv => .ok (.obj (setFirst kvs1 "items" iv))
  else .ok (.obj kvs1)

/-- The reference-free branch of `_resolve` on a mapping: copy the mapping,
resolving every value under `properties` and the value under `items` with
the given resolver. -/
def resolveObj (res : Json → Except PyErr Json) (kvs : List (String × Json)) :
    Except PyErr Json :=
  match propsStep res kvs with
  | .error e => .error e
  | .ok kvs1 => itemsStep res kvs1

/-- The method `MockDriftDetector._resolve`: recursively dereference `$ref` schema
references against the definition table `defs`, descending through
`properties` and `items`.  `fuel` bounds the recursion depth, standing for
Python's stack limit (a cyclic reference graph exhausts it). -/
def resolve (defs : Json) : Nat → Json → Except PyErr Json
  | 0, _ => .error .recursionError
  | fuel + 1, .obj kvs =>
    if hasKey kvs "$ref" then
      match (alGet? kvs "$ref").getD .null with
      | .str r =>
        match pyGetD defs (lastSeg r) (.obj []) with
        | .error e => .error e
        | .ok target => resolve defs fuel target
      | _ => .error .attrError
    else resolveObj (resolve defs fuel) kvs
  | _ + 1, s => .ok s

/-- A loaded `MockDriftDetector`: the spec document's top-level mapping plus
the definition table chosen at construction time (`definitions`, else
`components.schemas`, else empty). -/
structure Detector where
  spec : List (String × Json)
  defs : Json

/-- The constructor `MockDriftDetector.__init__` applied to an already-parsed spec document. -/
def mkDetector (specDoc : Json) : Except PyErr Detector :=
  match specDoc with
  | .obj kvs =>
    match pyGetD ((alGet? kvs "components").getD (.obj [])) "schemas" (.obj []) with
    | .error e => .error e
    | .ok inner => .ok ⟨kvs, (alGet? kvs "definitions").getD inner⟩
  | _ => .error .attrError

/-- The `status` argument of `get_schema`/`check_mock`: callers pass either a
string or an integer, and the code normalises it with `str(status)`. -/
inductive StatusArg where
  | str : String → StatusArg
  | int : Int → StatusArg

/-- Python `str(status)`. -/
def StatusArg.toStr : StatusArg → String
  | .str s => s
  | .int n => toString n

/-- The media-type loop of `get_schema`: iterate the values of the `content`
mapping and return the first resolved schema found under a `schema` key. -/
def contentFirst (defs : Json) (fuel : Nat) : List Json → Except PyErr (Option Json)
  | [] => .ok none
  | m :: rest =>
    match pyContains "schema" m with
    | .error e => .error e
    | .ok true =>
      match pyIndex m "schema" with
      | .error e => .error e
      | .ok s =>
        match resolve defs fuel s with
        | .error e => .error e
        | .ok r => .ok (some r)
    | .ok false => contentFirst defs fuel rest

/-- Lines 60-65 of `get_schema`: given the located response object, prefer a
content-type-keyed schema, then fall back to a directly attached `schema`. -/
def respSchema (defs : Json) (fuel : Nat) (resp : Json) : Except PyErr (Option Json) :=
  match pyGetD resp "content" (.obj []) with
  | .error e => .error e
  | .ok content =>
    match pyValues content with
    | .error e => .error e
    | .ok ms =>
      match contentFirst defs fuel ms with
      | .error e => .error e
      | .ok (some r) => .ok (some r)
      | .ok none =>
        match pyContains "schema" resp with
        | .error e => .error e
        | .ok true =>
          match pyIndex resp "schema" with
          | .error e => .error e
          | .ok s =>
            match resolve defs fuel s with
            | .error e => .error e
            | .ok r => .ok (some r)
        | .ok false => .ok none

/-- The method `MockDriftDetector.get_schema`: locate the response schema for a path,
method and status, resolving references; `none` when absent. -/
def getSchema (det : Detector) (fuel : Nat) (path method : String)
    (status : StatusArg) : Except PyErr (Option Json) :=
  match pyGetD ((alGet? det.spec "paths").getD (.obj [])) path (.obj []) with
  | .error e => .error e
  | .ok pitem =>
    match pyGet? pitem (strLower method) with
    | .error e => .error e
    | .ok none => .ok none
    | .ok (some op) =>
      if pyFalsy op then .ok none
      else
        match pyGetD op "responses" (.obj []) with
        | .error e => .error e
        | .ok resps =>
          match pyGet? resps status.toStr with
          | .error e => .error e
          | .ok none => .ok none
          | .ok (some resp) =>
            if pyFalsy resp then .ok none
            else respSchema det.defs fuel resp

/-- One `DriftReport` record: identity plus the ordered violation list. -/
structure DriftReport where
  name : String
  path : String
  method : String
  errors : List String

/-- The derived `drifted` property: true iff the errors list is non-empty. -/
def DriftReport.drifted (r : DriftReport) : Bool :=
  decide (0 < r.errors.length)

/-- The message reported when no schema exists for the request coordinates. -/
def noSchemaMsg (method path : String) (status : StatusArg) : String :=
  "No schema for " ++ strUpper method ++ " " ++ path ++ " [" ++ status.toStr ++ "]"

/-- The error list produced by one invocation of the validation primitive
(at most one message, per its boundary contract). -/
def mkErrs : Option String → List String
  | none => []
  | some m => [m]

/-- The method `MockDriftDetector.check_mock`.  Here `v` is the external `jsonschema.validate`
primitive: it either passes (`none`) or reports one violation message. -/
def checkMock (det : Detector) (v : Json → Json → Option String) (fuel : Nat)
    (name : String) (data : Json) (path method : String) (status : StatusArg) :
    Except PyErr DriftReport :=
  match getSchema det fuel path method status with
  | .error e => .error e
  | .ok none => .ok ⟨name, path, method, [noSchemaMsg method path status]⟩
  | .ok (some s) =>
    if pyFalsy s then .ok ⟨name, path, method, [noSchemaMsg method path status]⟩
    else .ok ⟨name, path, method, mkErrs (v data s)⟩

/-- The test spec used across the repository's test-suite, as parsed data. -/
def userSchema : Json :=
  .obj [("type", .str "object"),
        ("required", .arr [.str "id", .str "email"]),
        ("properties", .obj
          [("id", .obj [("type", .str "integer")]),
           ("email", .obj [("type", .str "string")]),
           ("name", .obj [("type", .str "string")])])]

def specDoc : Json :=
  .obj [("openapi", .str "3.0.0"),
        ("paths", .obj
          [("/users", .obj
            [("get", .obj
              [("responses", .obj
                [("200", .obj
                  [("description", .str "ok"),
                   ("content", .obj
                    [("application/json", .obj
                      [("schema", .obj
                        [("type", .str "array"),
                         ("items", .obj [("$ref", .str "#/components/schemas/User")])])])])])])])]),
           ("/users-direct", .obj
            [("get", .obj
              [("responses", .obj
                [("200", .obj
                  [("schema", .obj [("$ref", .str "#/components/schemas/User")])])])])])]),
        ("components", .obj [("schemas", .obj [("User", userSchema)])])]

def detTest : Detector :=
  match mkDetector specDoc with
  | .ok d => d
  | .error _ => ⟨[], .obj []⟩

/-- Round-half-to-even on a rational, the rounding used by Python's
fixed-point formatting `.0f`; away from exact halves it is rounding to the
nearest integer. -/
def roundHalfEven (q : ℚ) : Int :=
  let f := Int.fdiv q.num q.den
  let r := q.num - f * q.den
  if 2 * r < (q.den : Int) then f
  else if ((q.den : Int)) < 2 * r then f + 1
  else if f % 2 = 0 then f else f + 1

/-- Python `format(q, ".0f")` on the (idealised, rational-valued) age:
the rounded integer, with a `-0` for negative values rounding to zero. -/
def fmtF0 (q : ℚ) : String :=
  if roundHalfEven q = 0 ∧ q < 0 then "-0" else toString (roundHalfEven q)

/-- The staleness violation message of `check_cassette`. -/
def ageMsg (ageDays : ℚ) (maxAgeDays : Int) : String :=
  "Cassette age " ++ fmtF0 ageDays ++ "d exceeds " ++ toString maxAgeDays ++ "d limit"

/-- The finding name for cassette interaction `i`. -/
def tagOf (i : Nat) (method path : String) : String :=
  "cassette[" ++ toString i ++ "]:" ++ strUpper method ++ " " ++ path

/-- The line `body = json.loads(body_str) if body_str else None`, with the parse
errors caught: a falsy body value, a non-string body value, an unparsable
string, and a string parsing to `null` all leave the body absent. -/
def parseBody (jl : String → Option Json) (bodyStrJ : Json) : Option Json :=
  if pyFalsy bodyStrJ then none
  else
    match bodyStrJ with
    | .str s =>
      match jl s with
      | some .null => none
      | r => r
    | _ => none

/-- The method `MockDriftDetector.check_cassette`, one interaction.  External primitives
are parameters: `v` is `jsonschema.validate`, `jl` is `json.loads` (parse
failure reported as `none`), `up` maps a URI to its path component as
`urlparse(uri).path` does.  `ageDays` is the file age computed once per file
before the loop; `i` is the interaction's position. -/
def checkInteraction (det : Detector) (v : Json → Json → Option String)
    (jl : String → Option Json) (up : String → String) (fuel : Nat)
    (ageDays : ℚ) (maxAgeDays : Int) (i : Nat) (ix : Json) :
    Except PyErr DriftReport :=
  match pyGetD ix "request" (.obj []) with
  | .error e => .error e
  | .ok req =>
  match pyGetD ix "response" (.obj []) with
  | .error e => .error e
  | .ok res =>
  match pyGetD req "uri" (.str "") with
  | .error e => .error e
  | .ok (.str uri) =>
    match pyGetD req "method" (.str "GET") with
    | .error e => .error e
    | .ok (.str methodRaw) =>
      let path := up uri
      let method := strLower methodRaw
      let ageErrsV : List String :=
        if (maxAgeDays : ℚ) < ageDays then [ageMsg ageDays maxAgeDays] else []
      match pyGetD res "body" (.obj []) with
      | .error e => .error e
      | .ok bodyJ =>
      match pyGetD bodyJ "string" (.str "") with
      | .error e => .error e
      | .ok bodyStrJ =>
        match parseBody jl bodyStrJ with
        | none => .ok ⟨tagOf i method path, path, method, ageErrsV⟩
        | some b =>
          match getSchema det fuel path method (.str "200") with
          | .error e => .error e
          | .ok schemaO =>
            let bodyErrsV : List String :=
              match schemaO with
              | some s =>
                if pyFalsy s then []
                else
                  match v b s with
                  | some m => ["Body drift: " ++ m]
                  | none => []
              | none => []
            .ok ⟨tagOf i method path, path, method, ageErrsV ++ bodyErrsV⟩
    | .ok _ => .error .attrError
  | .ok _ => .error .typeError

/-- Python iteration over a parsed value (`enumerate(x)`): sequences yield
elements, mappings yield keys, strings yield one-character strings. -/
def pyIter : Json → Except PyErr (List Json)
  | .arr xs => .ok xs
  | .obj kvs => .ok (kvs.map (fun kv => Json.str kv.1))
  | .str s => .ok (s.data.map (fun c => Json.str (String.mk [c])))
  | _ => .error .typeError

/-- Index-carrying fallible map, the `for i, ix in enumerate(...)` loop. -/
def mapIdxE (f : Nat → Json → Except PyErr DriftReport) :
    Nat → List Json → Except PyErr (List DriftReport)
  | _, [] => .ok []
  | i, ix :: rest =>
    match f i ix with
    | .error e => .error e
    | .ok r =>
      match mapIdxE f (i + 1) rest with
      | .error e => .error e
      | .ok rs => .ok (r :: rs)

/-- The method `MockDriftDetector.check_cassette` applied to the already-parsed cassette
document (file reading, mtime and clock are outside the core: `ageDays` is
the age in days computed once from them before the loop). -/
def checkCassette (det : Detector) (v : Json → Json → Option String)
    (jl : String → Option Json) (up : String → String) (fuel : Nat)
    (ageDays : ℚ) (maxAgeDays : Int) (doc : Json) :
    Except PyErr (List DriftReport) :=
  match pyGetD doc "interactions" (.arr []) with
  | .error e => .error e
  | .ok ixsJ =>
    match pyIter ixsJ with
    | .error e => .error e
    | .ok items => mapIdxE (checkInteraction det v jl up fuel ageDays maxAgeDays) 0 items

/-- Total read of `j[k]` with a default, for stating what the traversal
extracts on well-shaped interactions. -/
def jValD (j : Json) (k : String) (d : Json) : Json :=
  match j with
  | .obj kvs => (alGet? kvs k).getD d
  | _ => d

def isObj : Json → Bool
  | .obj _ => true
  | _ => false

def isStr : Json → Bool
  | .str _ => true
  | _ => false

/-- A well-shaped cassette interaction: the mappings and strings that
`check_cassette` dereferences are of the expected kinds (the data model's
notion of an interaction: a mapping with request URI/method and a response
whose body is a mapping holding the body string). -/
def goodInteraction (ix : Json) : Bool :=
  isObj ix &&
  isObj (jValD ix "request" (.obj [])) &&
  isObj (jValD ix "response" (.obj [])) &&
  isStr (jValD (jValD ix "request" (.obj [])) "uri" (.str "")) &&
  isStr (jValD (jValD ix "request" (.obj [])) "method" (.str "GET")) &&
  isObj (jValD (jValD ix "response" (.obj [])) "body" (.obj []))

/-- The request path `check_cassette` extracts from an interaction. -/
def pathOf (up : String → String) (ix : Json) : String :=
  match jValD (jValD ix "request" (.obj [])) "uri" (.str "") with
  | .str s => up s
  | _ => ""

/-- The lower-cased request method `check_cassette` extracts. -/
def methodOf (ix : Json) : String :=
  match jValD (jValD ix "request" (.obj [])) "method" (.str "GET") with
  | .str s => strLower s
  | _ => ""

/-- The raw response body value an interaction holds under `body.string`. -/
def bodyStrOf (ix : Json) : Json :=
  jValD (jValD (jValD ix "response" (.obj [])) "body" (.obj [])) "string" (.str "")

/-- The parsed response body, `None` when empty or unparsable (or when the
body string parses to `null`). -/
def bodyOf (jl : String → Option Json) (ix : Json) : Option Json :=
  parseBody jl (bodyStrOf ix)

/-- The schema `check_cassette` consults for an interaction, absent when the
lookup finds nothing (an erroring lookup also reported as absent; the
theorems only use this under the hypothesis that the lookup does not raise). -/
def schemaOf (det : Detector) (fuel : Nat) (path method status : String) : Option Json :=
  match getSchema det fuel path method (.str status) with
  | .ok r => r
  | .error _ => none

/-- The structural (body drift) violations of one interaction, independent of
the cassette age. -/
def bodyErrsOf (det : Detector) (v : Json → Json → Option String)
    (jl : String → Option Json) (up : String → String) (fuel : Nat)
    (ix : Json) : List String :=
  match bodyOf jl ix with
  | none => []
  | some b =>
    match schemaOf det fuel (pathOf up ix) (methodOf ix) "200" with
    | some s =>
      if pyFalsy s then []
      else
        match v b s with
        | some m => ["Body drift: " ++ m]
        | none => []
    | none => []

/-- The finding `check_cassette` produces for interaction `i`, as a total
function of the interaction (defined for well-shaped interactions). -/
def interactionReport (det : Detector) (v : Json → Json → Option String)
    (jl : String → Option Json) (up : String → String) (fuel : Nat)
    (ageDays : ℚ) (maxAgeDays : Int) (i : Nat) (ix : Json) : DriftReport :=
  ⟨tagOf i (methodOf ix) (pathOf up ix), pathOf up ix, methodOf ix,
   (if (maxAgeDays : ℚ) < ageDays then [ageMsg ageDays maxAgeDays] else [])
     ++ bodyErrsOf det v jl up fuel ix⟩

/-- Index-carrying pure map, mirror of `mapIdxE` on the success path. -/
def mapIdxP {α : Type} (g : Nat → Json → α) : Nat → List Json → List α
  | _, [] => []
  | i, ix :: rest => g i ix :: mapIdxP g (i + 1) rest

/-- Success test on `Except`. -/
def isOkE {α : Type} : Except PyErr α → Bool
  | .ok _ => true
  | .error _ => false

/-- One SARIF result entry, the fixed-shape record `to_sarif` builds per
violation. -/
structure SarifResult where
  ruleId : String
  level : String
  messageText : String
  locationUri : String

/-- One SARIF rule descriptor. -/
structure SarifRule where
  id : String
  shortDescriptionText : String

/-- The SARIF-like document `to_sarif` renders. -/
structure SarifDoc where
  version : String
  schemaUri : String
  toolName : String
  toolVersion : String
  rules : List SarifRule
  results : List SarifResult

/-- The function `to_sarif`: one result per violation of each drifted finding, inside a
fixed document envelope. -/
def toSarif (reports : List DriftReport) : SarifDoc :=
  { version := "2.1.0"
    schemaUri := "https://json.schemastore.org/sarif-2.1.0.json"
    toolName := "MockDrift"
    toolVersion := "1.0.0"
    rules := [⟨"mockdrift/schema-drift", "Mock drifted from API schema"⟩]
    results :=
      (reports.filter (fun r => r.drifted)).flatMap
        (fun r => r.errors.map (fun e =>
          ⟨"mockdrift/schema-drift", "error", r.name ++ ": " ++ e, r.path⟩)) }

/-- Final path component, as `os.path.basename` on POSIX paths. -/
def baseName (s : String) : String :=
  String.mk ((s.data.reverse.takeWhile (fun c => c != '/')).reverse)

/-- Modelled from the spec: the extended cassette-originated finding record
(`DriftResult`) of the `VCRCassetteDriftChecker`, which the repository's
tests import from `mockdrift_core` but whose source is not under `src/`.
Field meanings follow the DATA MODEL section: locator fields plus the
resolved schema used and the key-level diff mapping. -/
structure DriftResult where
  name : String
  path : String
  method : String
  errors : List String
  cassetteFile : String
  interactionIndex : Nat
  statusCode : String
  expectedSchema : Option Json
  actualKeysDiff : List (String × List String)

/-- Modelled from the spec: the stringified response status of a cassette
interaction (`status_code (string)`), defaulting to the default status 200. -/
def statusCodeOf (ix : Json) : String :=
  match jValD (jValD (jValD ix "response" (.obj [])) "status" (.obj [])) "code" .null with
  | .int n => toString n
  | .str s => s
  | _ => "200"

/-- The `required` property names a schema declares, in declared order. -/
def vcrRequired (schema : Json) : List String :=
  match schema with
  | .obj kvs =>
    match alGet? kvs "required" with
    | some (.arr rs) => rs.filterMap (fun r => match r with | .str s => some s | _ => none)
    | _ => []
  | _ => []

/-- The property names a schema declares under `properties`, in order. -/
def vcrProps (schema : Json) : List String :=
  match schema with
  | .obj kvs =>
    match alGet? kvs "properties" with
    | some (.obj pk) => pk.map Prod.fst
    | _ => []
  | _ => []

/-- Top-level keys of a payload, in order (none for non-mapping payloads). -/
def topKeys (body : Json) : List String :=
  match body with
  | .obj kvs => kvs.map Prod.fst
  | _ => []

/-- Modelled from the spec: the key-level diff of payload shape versus schema
shape — `missing` holds schema-required keys absent from the payload (in
declared order), `extra` holds payload top-level keys absent from the
schema's declared properties; each key is omitted when its list is empty. -/
def vcrKeysDiff (schema body : Json) : List (String × List String) :=
  (if ((vcrRequired schema).filter
        (fun k => !((topKeys body).contains k))).isEmpty then []
   else [("missing", (vcrRequired schema).filter
        (fun k => !((topKeys body).contains k)))])
  ++
  (if ((topKeys body).filter
        (fun k => !((vcrProps schema).contains k))).isEmpty then []
   else [("extra", (topKeys body).filter
        (fun k => !((vcrProps schema).contains k)))])

/-- Modelled from the spec: one interaction's extended finding as produced by
`VCRCassetteDriftChecker.check` (source not under `src/`; behaviour taken
from COMPONENT DESIGN 4.5): locator fields, the shared age verdict, the
validator messages prefixed with `Body drift: `, the resolved schema used
and the key-level diff. -/
def vcrInteraction (det : Detector) (v : Json → Json → Option String)
    (jl : String → Option Json) (up : String → String) (fuel : Nat)
    (cassetteFile : String) (ageDays : ℚ) (maxAgeDays : Int)
    (i : Nat) (ix : Json) : DriftResult :=
  { name := tagOf i (methodOf ix) (pathOf up ix)
    path := pathOf up ix
    method := methodOf ix
    errors :=
      (if (maxAgeDays : ℚ) < ageDays then [ageMsg ageDays maxAgeDays] else [])
      ++ (match bodyOf jl ix,
            schemaOf det fuel (pathOf up ix) (methodOf ix) (statusCodeOf ix) with
          | some b, some s =>
            match v b s with
            | some m => ["Body drift: " ++ m]
            | none => []
          | _, _ => [])
    cassetteFile := cassetteFile
    interactionIndex := i
    statusCode := statusCodeOf ix
    expectedSchema := schemaOf det fuel (pathOf up ix) (methodOf ix) (statusCodeOf ix)
    actualKeysDiff :=
      match bodyOf jl ix,
        schemaOf det fuel (pathOf up ix) (methodOf ix) (statusCodeOf ix) with
      | some b, some s => vcrKeysDiff s b
      | _, _ => [] }

/-- A spec document in the legacy dialect whose only schema is a reference
to a name absent from the definition table. -/
def specDangling : Json :=
  .obj [("swagger", .str "2.0"),
        ("paths", .obj
          [("/missing-ref", .obj
            [("get", .obj
              [("responses", .obj
                [("200", .obj
                  [("content", .obj
                    [("application/json", .obj
                      [("schema", .obj [("$ref", .str "#/definitions/Nope")])])])])])])])]),
        ("definitions", .obj [])]

def detDangling : Detector :=
  match mkDetector specDangling with
  | .ok d => d
  | .error _ => ⟨[], .obj []⟩

/-- A spec document whose response object carries both a content-keyed
schema and a directly attached legacy `schema` key. -/
def specBoth : Json :=
  .obj [("paths", .obj
          [("/both", .obj
            [("get", .obj
              [("responses", .obj
                [("200", .obj
                  [("content", .obj
                    [("text/plain", .obj [("example", .str "x")]),
                     ("application/json", .obj
                      [("schema", .obj [("type", .str "integer")])])]),
                   ("schema", .obj [("type", .str "string")])])])])])]),
        ("components", .obj [("schemas", .obj [])])]

def detBoth : Detector :=
  match mkDetector specBoth with
  | .ok d => d
  | .error _ => ⟨[], .obj []⟩

/-- A detector whose spec declares no paths at all. -/
def detEmpty : Detector := ⟨[("paths", .obj [])], .obj []⟩

/-- A well-shaped cassette interaction fixture: empty body string. -/
def ixEmptyBody : Json :=
  .obj [("request", .obj [("uri", .str "https://api.test/users"), ("method", .str "GET")]),
        ("response", .obj [("status", .obj [("code", .int 200)]),
                           ("body", .obj [("string", .str "")])])]

/-- A well-shaped cassette interaction fixture: unparsable body string. -/
def ixBadBody : Json :=
  .obj [("request", .obj [("uri", .str "https://api.test/users"), ("method", .str "GET")]),
        ("response", .obj [("status", .obj [("code", .int 200)]),
                           ("body", .obj [("string", .str "not json")])])]

/-- A two-interaction cassette document fixture. -/
def docTwo : Json := .obj [("interactions", .arr [ixEmptyBody, ixBadBody])]

/-- Witness validation primitive: always passes. -/
def vNone : Json → Json → Option String := fun _ _ => none

/-- Witness `json.loads`: nothing parses. -/
def jlNone : String → Option Json := fun _ => none

/-- Witness URI-to-path map: the identity. -/
def upId : String → String := fun s => s

/-- Mock payload missing the required keys (DESIGN 8's example body). -/
def bodyAlice : Json := .obj [("name", .str "Alice")]

/-- Mock payload with keys beyond the declared properties. -/
def bodyExtra : Json :=
  .obj [("id", .int 1), ("email", .str "a@b"),
        ("role", .str "admin"), ("avatar_url", .str "x")]

/-- Witness `json.loads` for the cassette fixtures: two known body texts. -/
def jlTwo : String → Option Json :=
  fun s => if s == "A" then some bodyAlice else if s == "B" then some bodyExtra else none

/-- Cassette interaction whose body parses to `bodyAlice`. -/
def ixAlice : Json :=
  .obj [("request", .obj [("uri", .str "/users-direct"), ("method", .str "GET")]),
        ("response", .obj [("status", .obj [("code", .int 200)]),
                           ("body", .obj [("string", .str "A")])])]

/-- Cassette interaction whose body parses to `bodyExtra`. -/
def ixExtra : Json :=
  .obj [("request", .obj [("uri", .str "/users-direct"), ("method", .str "GET")]),
        ("response", .obj [("status", .obj [("code", .int 200)]),
                           ("body", .obj [("string", .str "B")])])]

/-- A two-interaction VCR cassette document fixture. -/
def docVcr : Json := .obj [("interactions", .arr [ixAlice, ixExtra])]

/-- A default record for reading optional list positions in witnesses. -/
def emptyResult : DriftResult := ⟨"", "", "", [], "", 0, "", none, []⟩

/-- The interaction sequence a cassette document carries. -/
def vcrInteractions (doc : Json) : List Json :=
  match doc with
  | .obj kvs =>
    match alGet? kvs "interactions" with
    | some (.arr l) => l
    | _ => []
  | _ => []

/-- Modelled from the spec: `VCRCassetteDriftChecker.check` over a parsed
cassette document — one extended finding per interaction, in file order. -/
def vcrCheck (det : Detector) (v : Json → Json → Option String)
    (jl : String → Option Json) (up : String → String) (fuel : Nat)
    (cassettePath : String) (ageDays : ℚ) (maxAgeDays : Int)
    (doc : Json) : List DriftResult :=
  mapIdxP (vcrInteraction det v jl up fuel (baseName cassettePath) ageDays maxAgeDays)
    0 (vcrInteractions doc)

/-! ### Association-list lemmas -/

theorem hasKey_cons {α : Type} (a : String) (b : α) (rest : List (String × α)) (k : String) :
    hasKey ((a, b) :: rest) k = ((a == k) || hasKey rest k) := rfl

theorem alGet?_isSome_of_hasKey {α : Type} (l : List (String × α)) (k : String)
    (h : hasKey l k = true) : ∃ v, alGet? l k = some v := by
  induction l with
  | nil => simp [hasKey] at h
  | cons kv rest ih =>
    obtain ⟨a, b⟩ := kv
    rw [hasKey_cons] at h
    by_cases hak : (a == k) = true
    · exact ⟨b, by simp [alGet?, hak]⟩
    · simp [hak] at h
      obtain ⟨v, hv⟩ := ih h
      exact ⟨v, by simp [alGet?, hak, hv]⟩

theorem hasKey_setFirst (l : List (String × Json)) (k : String) (v : Json) (k' : String) :
    hasKey (setFirst l k v) k' = hasKey l k' := by
  induction l with
  | nil => rfl
  | cons kv rest ih =>
    obtain ⟨a, b⟩ := kv
    by_cases hak : (a == k) = true
    · simp [setFirst, hak, hasKey_cons]
    · simp only [setFirst, hak, if_false, Bool.false_eq_true, ite_false, hasKey_cons, ih]

theorem alGet?_setFirst_self (l : List (String × Json)) (k : String) (v : Json)
    (h : hasKey l k = true) : alGet? (setFirst l k v) k = some v := by
  induction l with
  | nil => simp [hasKey] at h
  | cons kv rest ih =>
    obtain ⟨a, b⟩ := kv
    rw [hasKey_cons] at h
    by_cases hak : (a == k) = true
    · simp [setFirst, hak, alGet?]
    · simp only [hak, Bool.false_or] at h
      simp [setFirst, hak, alGet?, ih h]

theorem alGet?_setFirst_ne (l : List (String × Json)) (k : String) (v : Json) (k' : String)
    (h : (k == k') = false) : alGet? (setFirst l k v) k' = alGet? l k' := by
  induction l with
  | nil => rfl
  | cons kv rest ih =>
    obtain ⟨a, b⟩ := kv
    by_cases hak : (a == k) = true
    · have hak' : (a == k') = false := by
        rw [beq_iff_eq] at hak
        subst hak
        exact h
      simp [setFirst, hak, alGet?, hak']
    · simp [setFirst, hak, alGet?, ih]

theorem setFirst_same (l : List (String × Json)) (k : String) (v : Json)
    (h : alGet? l k = some v) : setFirst l k v = l := by
  induction l with
  | nil => rfl
  | cons kv rest ih =>
    obtain ⟨a, b⟩ := kv
    by_cases hak : (a == k) = true
    · simp only [alGet?, hak, if_true, Option.some.injEq] at h
      simp [setFirst, hak, h]
    · simp only [alGet?, hak, Bool.false_eq_true, ite_false] at h
      simp [setFirst, hak, ih h]

/-! ### `mapSnd` lemmas -/

theorem mapSnd_congr (f g : Json → Except PyErr Json)
    (h : ∀ v r, f v = .ok r → g v = .ok r) :
    ∀ l l2, mapSnd f l = .ok l2 → mapSnd g l = .ok l2 := by
  intro l
  induction l with
  | nil => intro l2 hl; simpa [mapSnd] using hl
  | cons kv rest ih =>
    obtain ⟨k, v⟩ := kv
    intro l2 hl
    simp only [mapSnd] at hl ⊢
    cases hfv : f v with
    | error e => rw [hfv] at hl; exact absurd hl (by simp)
    | ok v2 =>
      rw [hfv] at hl
      cases hrest : mapSnd f rest with
      | error e => rw [hrest] at hl; exact absurd hl (by simp)
      | ok rest2 =>
        rw [hrest] at hl
        rw [h v v2 hfv, ih rest2 hrest]
        exact hl

theorem mapSnd_fix (f : Json → Except PyErr Json)
    (hfix : ∀ v r, f v = .ok r → f r = .ok r) :
    ∀ l l2, mapSnd f l = .ok l2 → mapSnd f l2 = .ok l2 := by
  intro l
  induction l with
  | nil => intro l2 hl; simp only [mapSnd] at hl; cases hl; rfl
  | cons kv rest ih =>
    obtain ⟨k, v⟩ := kv
    intro l2 hl
    simp only [mapSnd] at hl
    cases hfv : f v with
    | error e => rw [hfv] at hl; exact absurd hl (by simp)
    | ok v2 =>
      rw [hfv] at hl
      cases hrest : mapSnd f rest with
      | error e => rw [hrest] at hl; exact absurd hl (by simp)
      | ok rest2 =>
        rw [hrest] at hl
        cases hl
        simp only [mapSnd, hfix v v2 hfv, ih rest2 hrest]

/-! ### Resolution lemmas -/

theorem propsStep_congr (res res2 : Json → Except PyErr Json)
    (h : ∀ v r, res v = .ok r → res2 v = .ok r)
    (kvs kvs1 : List (String × Json)) (hps : propsStep res kvs = .ok kvs1) :
    propsStep res2 kvs = .ok kvs1 := by
  simp only [propsStep] at hps ⊢
  by_cases hp : hasKey kvs "properties" = true
  · rw [if_pos hp] at hps ⊢
    cases hgv : (alGet? kvs "properties").getD .null with
    | obj pkvs =>
      simp only [hgv] at hps ⊢
      cases hm : mapSnd res pkvs with
      | error e => simp only [hm] at hps; exact absurd hps (by simp)
      | ok pkvs2 =>
        simp only [hm] at hps
        simp only [mapSnd_congr res res2 h pkvs pkvs2 hm]
        exact hps
    | null => simp only [hgv] at hps; exact absurd hps (by simp)
    | bool b => simp only [hgv] at hps; exact absurd hps (by simp)
    | int n => simp only [hgv] at hps; exact absurd hps (by simp)
    | str s => simp only [hgv] at hps; exact absurd hps (by simp)
    | arr xs => simp only [hgv] at hps; exact absurd hps (by simp)
  · rw [if_neg hp] at hps ⊢
    exact hps

theorem itemsStep_congr (res res2 : Json → Except PyErr Json)
    (h : ∀ v r, res v = .ok r → res2 v = .ok r)
    (kvs1 : List (String × Json)) (t : Json) (hit : itemsStep res kvs1 = .ok t) :
    itemsStep res2 kvs1 = .ok t := by
  simp only [itemsStep] at hit ⊢
  by_cases hi : hasKey kvs1 "items" = true
  · rw [if_pos hi] at hit ⊢
    cases hres : res ((alGet? kvs1 "items").getD .null) with
    | error e => simp only [hres] at hit; exact absurd hit (by simp)
    | ok iv =>
      simp only [hres] at hit
      simp only [h _ iv hres]
      exact hit
  · rw [if_neg hi] at hit ⊢
    exact hit

theorem resolveObj_congr (res res2 : Json → Except PyErr Json)
    (h : ∀ v r, res v = .ok r → res2 v = .ok r)
    (kvs : List (String × Json)) (t : Json) (hr : resolveObj res kvs = .ok t) :
    resolveObj res2 kvs = .ok t := by
  simp only [resolveObj] at hr ⊢
  cases hps : propsStep res kvs with
  | error e => simp only [hps] at hr; exact absurd hr (by simp)
  | ok kvs1 =>
    simp only [hps] at hr
    simp only [propsStep_congr res res2 h kvs kvs1 hps]
    exact itemsStep_congr res res2 h kvs1 t hr

theorem resolve_mono (defs : Json) :
    ∀ fuel s t, resolve defs fuel s = .ok t → resolve defs (fuel + 1) s = .ok t := by
  intro fuel
  induction fuel with
  | zero => intro s t h; exact absurd h (by simp [resolve])
  | succ fuel ih =>
    intro s t h
    cases s with
    | obj kvs =>
      simp only [resolve] at h ⊢
      by_cases href : hasKey kvs "$ref" = true
      · rw [if_pos href] at h ⊢
        cases hgv : (alGet? kvs "$ref").getD .null with
        | str r =>
          simp only [hgv] at h ⊢
          cases hpg : pyGetD defs (lastSeg r) (.obj []) with
          | error e => simp only [hpg] at h; exact absurd h (by simp)
          | ok target =>
            simp only [hpg] at h ⊢
            exact ih target t h
        | null => simp only [hgv] at h; exact absurd h (by simp)
        | bool b => simp only [hgv] at h; exact absurd h (by simp)
        | int n => simp only [hgv] at h; exact absurd h (by simp)
        | arr xs => simp only [hgv] at h; exact absurd h (by simp)
        | obj o => simp only [hgv] at h; exact absurd h (by simp)
      · rw [if_neg href] at h ⊢
        exact resolveObj_congr (resolve defs fuel) (resolve defs (fuel + 1)) ih kvs t h
    | null => exact h
    | bool b => exact h
    | int n => exact h
    | str s => exact h
    | arr xs => exact h

theorem propsStep_fix (res : Json → Except PyErr Json)
    (hfix : ∀ v r, res v = .ok r → res r = .ok r)
    (kvs kvs1 : List (String × Json)) (hps : propsStep res kvs = .ok kvs1) :
    (∀ k, hasKey kvs1 k = hasKey kvs k) ∧ propsStep res kvs1 = .ok kvs1 := by
  simp only [propsStep] at hps
  by_cases hp : hasKey kvs "properties" = true
  · rw [if_pos hp] at hps
    obtain ⟨w, hw⟩ := alGet?_isSome_of_hasKey kvs "properties" hp
    rw [hw] at hps
    simp only [Option.getD_some] at hps
    cases w with
    | obj pkvs =>
      cases hm : mapSnd res pkvs with
      | error e => simp only [hm] at hps; exact absurd hps (by simp)
      | ok pkvs2 =>
        simp only [hm] at hps
        rw [Except.ok.injEq] at hps
        subst hps
        refine ⟨fun k => hasKey_setFirst kvs "properties" (.obj pkvs2) k, ?_⟩
        have hk1 : hasKey (setFirst kvs "properties" (.obj pkvs2)) "properties" = true := by
          rw [hasKey_setFirst]; exact hp
        have hga : alGet? (setFirst kvs "properties" (.obj pkvs2)) "properties"
            = some (.obj pkvs2) := alGet?_setFirst_self kvs "properties" (.obj pkvs2) hp
        simp only [propsStep, hk1, if_true, hga, Option.getD_some,
          mapSnd_fix res hfix pkvs pkvs2 hm]
        rw [Except.ok.injEq]
        exact setFirst_same _ "properties" (.obj pkvs2) hga
    | null => exact absurd hps (by simp)
    | bool b => exact absurd hps (by simp)
    | int n => exact absurd hps (by simp)
    | str s => exact absurd hps (by simp)
    | arr xs => exact absurd hps (by simp)
  · rw [if_neg hp] at hps
    rw [Except.ok.injEq] at hps
    subst hps
    exact ⟨fun k => rfl, by simp only [propsStep]; rw [if_neg hp]⟩

theorem propsStep_stable (res : Json → Except PyErr Json)
    (kvs1 kvs2 : List (String × Json))
    (hkeys : ∀ k, hasKey kvs2 k = hasKey kvs1 k)
    (hprop : alGet? kvs2 "properties" = alGet? kvs1 "properties")
    (hps1 : propsStep res kvs1 = .ok kvs1) :
    propsStep res kvs2 = .ok kvs2 := by
  simp only [propsStep] at hps1 ⊢
  by_cases hp : hasKey kvs1 "properties" = true
  · rw [if_pos hp] at hps1
    rw [if_pos (by rw [hkeys]; exact hp)]
    obtain ⟨w, hw⟩ := alGet?_isSome_of_hasKey kvs1 "properties" hp
    rw [hw] at hps1
    simp only [Option.getD_some] at hps1
    rw [hprop, hw]
    simp only [Option.getD_some]
    cases w with
    | obj pkvs =>
      cases hm : mapSnd res pkvs with
      | error e => simp only [hm] at hps1; exact absurd hps1 (by simp)
      | ok pkvs2 =>
        simp only [hm] at hps1 ⊢
        rw [Except.ok.injEq] at hps1
        have hget1 : alGet? kvs1 "properties" = some (.obj pkvs2) := by
          rw [← hps1]
          exact alGet?_setFirst_self kvs1 "properties" (.obj pkvs2) hp
        have hpeq : Json.obj pkvs = Json.obj pkvs2 := by
          rw [hw] at hget1
          exact (Option.some.injEq _ _ ▸ hget1 : _)
        rw [Except.ok.injEq]
        apply setFirst_same
        rw [hprop, hw, hpeq]
    | null => exact absurd hps1 (by simp)
    | bool b => exact absurd hps1 (by simp)
    | int n => exact absurd hps1 (by simp)
    | str s => exact absurd hps1 (by simp)
    | arr xs => exact absurd hps1 (by simp)
  · rw [if_neg hp] at hps1
    rw [if_neg (by rw [hkeys]; exact hp)]

theorem resolveObj_fix (res : Json → Except PyErr Json)
    (hfix : ∀ v r, res v = .ok r → res r = .ok r)
    (kvs : List (String × Json)) (t : Json)
    (hr : resolveObj res kvs = .ok t) :
    ∃ kvs2, t = .obj kvs2 ∧ (∀ k, hasKey kvs2 k = hasKey kvs k) ∧
      resolveObj res kvs2 = .ok (.obj kvs2) := by
  simp only [resolveObj] at hr
  cases hps : propsStep res kvs with
  | error e => simp only [hps] at hr; exact absurd hr (by simp)
  | ok kvs1 =>
    simp only [hps] at hr
    obtain ⟨hkeys1, hps1⟩ := propsStep_fix res hfix kvs kvs1 hps
    simp only [itemsStep] at hr
    by_cases hi : hasKey kvs1 "items" = true
    · rw [if_pos hi] at hr
      cases hres : res ((alGet? kvs1 "items").getD .null) with
      | error e => simp only [hres] at hr; exact absurd hr (by simp)
      | ok iv =>
        simp only [hres] at hr
        rw [Except.ok.injEq] at hr
        subst hr
        refine ⟨setFirst kvs1 "items" iv, rfl, ?_, ?_⟩
        · intro k
          rw [hasKey_setFirst, hkeys1]
        · have hne : (("items" : String) == "properties") = false := by decide
          have hkeys2 : ∀ k, hasKey (setFirst kvs1 "items" iv) k = hasKey kvs1 k :=
            fun k => hasKey_setFirst kvs1 "items" iv k
          have hprop2 : alGet? (setFirst kvs1 "items" iv) "properties"
              = alGet? kvs1 "properties" :=
            alGet?_setFirst_ne kvs1 "items" iv "properties" hne
          have hstable := propsStep_stable res kvs1 (setFirst kvs1 "items" iv)
            hkeys2 hprop2 hps1
          simp only [resolveObj, hstable, itemsStep]
          have hik : hasKey (setFirst kvs1 "items" iv) "items" = true := by
            rw [hasKey_setFirst]; exact hi
          rw [if_pos hik]
          have hgi : alGet? (setFirst kvs1 "items" iv) "items" = some iv :=
            alGet?_setFirst_self kvs1 "items" iv hi
          simp only [hgi, Option.getD_some]
          have hres2 : res iv = .ok iv := hfix _ iv hres
          simp only [hres2]
          rw [Except.ok.injEq, Json.obj.injEq]
          exact setFirst_same _ "items" iv hgi
    · rw [if_neg hi] at hr
      rw [Except.ok.injEq] at hr
      subst hr
      refine ⟨kvs1, rfl, hkeys1, ?_⟩
      simp only [resolveObj, hps1, itemsStep]
      rw [if_neg hi]

theorem resolve_fix (defs : Json) :
    ∀ fuel s t, resolve defs fuel s = .ok t → resolve defs fuel t = .ok t := by
  intro fuel
  induction fuel with
  | zero => intro s t h; exact absurd h (by simp [resolve])
  | succ fuel ih =>
    intro s t h
    cases s with
    | obj kvs =>
      simp only [resolve] at h
      by_cases href : hasKey kvs "$ref" = true
      · rw [if_pos href] at h
        cases hgv : (alGet? kvs "$ref").getD .null with
        | str r =>
          simp only [hgv] at h
          cases hpg : pyGetD defs (lastSeg r) (.obj []) with
          | error e => simp only [hpg] at h; exact absurd h (by simp)
          | ok target =>
            simp only [hpg] at h
            exact resolve_mono defs fuel t t (ih target t h)
        | null => simp only [hgv] at h; exact absurd h (by simp)
        | bool b => simp only [hgv] at h; exact absurd h (by simp)
        | int n => simp only [hgv] at h; exact absurd h (by simp)
        | arr xs => simp only [hgv] at h; exact absurd h (by simp)
        | obj o => simp only [hgv] at h; exact absurd h (by simp)
      · rw [if_neg href] at h
        obtain ⟨kvs2, ht, hkeys, hfix2⟩ := resolveObj_fix (resolve defs fuel) ih kvs t h
        subst ht
        simp only [resolve]
        rw [if_neg (by rw [hkeys]; exact href)]
        exact hfix2
    | null => rw [show resolve defs (fuel + 1) .null = .ok .null from rfl] at h; rw [Except.ok.injEq] at h; subst h; rfl
    | bool b => rw [show resolve defs (fuel + 1) (.bool b) = .ok (.bool b) from rfl] at h; rw [Except.ok.injEq] at h; subst h; rfl
    | int n => rw [show resolve defs (fuel + 1) (.int n) = .ok (.int n) from rfl] at h; rw [Except.ok.injEq] at h; subst h; rfl
    | str s => rw [show resolve defs (fuel + 1) (.str s) = .ok (.str s) from rfl] at h; rw [Except.ok.injEq] at h; subst h; rfl
    | arr xs => rw [show resolve defs (fuel + 1) (.arr xs) = .ok (.arr xs) from rfl] at h; rw [Except.ok.injEq] at h; subst h; rfl

/-- C4: schema reference resolution is idempotent — for every schema value
(mapping, sequence or scalar) and any recursion budget, feeding the result
of `_resolve` back into `_resolve` returns it unchanged. -/
theorem resolve_idempotent (defs : Json) (fuel : Nat) (s : Json) :
    (resolve defs fuel s).bind (resolve defs fuel) = resolve defs fuel s := by
  cases h : resolve defs fuel s with
  | error e => rfl
  | ok t =>
    show resolve defs fuel t = .ok t
    exact resolve_fix defs fuel s t h

/-! ### SARIF rendering -/

/-- C6: the SARIF-like rendering contains one result entry per violation of
each drifted finding (none for non-drifted findings), each tagged with rule
`mockdrift/schema-drift`, level `error`, a message combining the finding
name and the violation text and a location carrying the finding's path; the
document declares version 2.1.0, the tool name and exactly one rule. -/
theorem toSarif_shape (reports : List DriftReport) :
    (toSarif reports).version = "2.1.0"
    ∧ (toSarif reports).toolName = "MockDrift"
    ∧ (toSarif reports).rules.length = 1
    ∧ (toSarif reports).results.length
        = ((reports.filter (fun r => r.drifted)).map (fun r => r.errors.length)).sum
    ∧ ∀ res ∈ (toSarif reports).results,
        res.ruleId = "mockdrift/schema-drift" ∧ res.level = "error"
        ∧ ∃ r ∈ reports, r.drifted = true ∧ ∃ e ∈ r.errors,
            res.messageText = r.name ++ ": " ++ e ∧ res.locationUri = r.path := by
  refine ⟨rfl, rfl, rfl, ?_, ?_⟩
  · simp only [toSarif, List.length_flatMap, List.map_map]
    congr 1
    apply List.map_congr_left
    intro r _
    simp
  · intro res hres
    simp only [toSarif, List.mem_flatMap, List.mem_filter, List.mem_map] at hres
    obtain ⟨r, ⟨hrmem, hdr⟩, e, hemem, heq⟩ := hres
    subst heq
    exact ⟨rfl, rfl, r, hrmem, hdr, e, hemem, rfl, rfl⟩

theorem toSarif_shape_witness :
    (toSarif [⟨"bad", "/users", "get", ["e1", "e2"]⟩, ⟨"ok", "/x", "get", []⟩]).results.length = 2
    ∧ (toSarif [⟨"bad", "/users", "get", ["e1", "e2"]⟩, ⟨"ok", "/x", "get", []⟩]).version
        = "2.1.0" := by
  have h := toSarif_shape [⟨"bad", "/users", "get", ["e1", "e2"]⟩, ⟨"ok", "/x", "get", []⟩]
  refine ⟨?_, h.1⟩
  rw [h.2.2.2.1]
  rfl

/-! ### Mock checking -/

/-- C3: when the schema lookup reports absence, `check_mock` returns a
finding whose errors list holds exactly the one message
`No schema for METHOD path [status]` (method upper-cased), and the finding
is drifted. -/
theorem checkMock_no_schema (det : Detector) (v : Json → Json → Option String)
    (fuel : Nat) (name : String) (data : Json) (path method : String)
    (status : StatusArg)
    (habs : getSchema det fuel path method status = .ok none) :
    checkMock det v fuel name data path method status
      = .ok ⟨name, path, method, [noSchemaMsg method path status]⟩
    ∧ DriftReport.drifted ⟨name, path, method, [noSchemaMsg method path status]⟩
        = true := by
  constructor
  · simp only [checkMock, habs]
  · rfl

theorem checkMock_no_schema_witness :
    checkMock detTest vNone 5 "ghost" (.obj [("x", .int 1)]) "/orders" "get" (.str "200")
      = .ok ⟨"ghost", "/orders", "get", ["No schema for GET /orders [200]"]⟩ := by
  have h := checkMock_no_schema detTest vNone 5 "ghost" (.obj [("x", .int 1)])
    "/orders" "get" (.str "200") rfl
  exact h.1.trans (by rfl)

/-- C8: when the lookup finds a schema, the finding `check_mock` returns
carries at most one violation message, because the validation wrapper
appends at most one message per single-payload check. -/
theorem checkMock_at_most_one_error (det : Detector) (v : Json → Json → Option String)
    (fuel : Nat) (name : String) (data : Json) (path method : String)
    (status : StatusArg) (s : Json)
    (hfound : getSchema det fuel path method status = .ok (some s)) :
    ∃ r, checkMock det v fuel name data path method status = .ok r
      ∧ r.errors.length ≤ 1 := by
  simp only [checkMock, hfound]
  by_cases hf : pyFalsy s = true
  · rw [if_pos hf]
    exact ⟨_, rfl, by simp⟩
  · rw [if_neg hf]
    refine ⟨_, rfl, ?_⟩
    cases v data s <;> simp [mkErrs]

theorem checkMock_at_most_one_error_witness :
    checkMock detTest vNone 5 "m" (.obj []) "/users-direct" "get" (.str "200")
      = .ok ⟨"m", "/users-direct", "get", []⟩
    ∧ (DriftReport.errors ⟨"m", "/users-direct", "get", []⟩).length ≤ 1 := by
  obtain ⟨r, hr, hl⟩ := checkMock_at_most_one_error detTest vNone 5 "m" (.obj [])
    "/users-direct" "get" (.str "200") userSchema rfl
  have hA : checkMock detTest vNone 5 "m" (.obj []) "/users-direct" "get" (.str "200")
      = .ok ⟨"m", "/users-direct", "get", []⟩ := rfl
  rw [hA] at hr
  rw [Except.ok.injEq] at hr
  subst hr
  exact ⟨hA, hl⟩

/-- C10: when the located schema resolves to a falsy value — in particular
the empty mapping produced for a reference to a name absent from the
definition table — `check_mock` reports the drifted no-schema finding
instead of validating the payload against the unconstrained schema. -/
theorem checkMock_falsy_schema (det : Detector) (v : Json → Json → Option String)
    (fuel : Nat) (name : String) (data : Json) (path method : String)
    (status : StatusArg) (s : Json)
    (hfound : getSchema det fuel path method status = .ok (some s))
    (hfalsy : pyFalsy s = true) :
    checkMock det v fuel name data path method status
      = .ok ⟨name, path, method, [noSchemaMsg method path status]⟩
    ∧ DriftReport.drifted ⟨name, path, method, [noSchemaMsg method path status]⟩
        = true := by
  constructor
  · simp only [checkMock, hfound]
    rw [if_pos hfalsy]
  · rfl

theorem checkMock_falsy_schema_witness :
    checkMock detDangling vNone 5 "m" (.obj [("id", .int 1)]) "/missing-ref" "get"
      (.str "200")
      = .ok ⟨"m", "/missing-ref", "get", ["No schema for GET /missing-ref [200]"]⟩ := by
  have h := checkMock_falsy_schema detDangling vNone 5 "m" (.obj [("id", .int 1)])
    "/missing-ref" "get" (.str "200") (.obj []) rfl rfl
  exact h.1.trans (by rfl)

/-! ### Schema lookup -/

theorem hasKey_of_alGet? {α : Type} (l : List (String × α)) (k : String) (v : α)
    (h : alGet? l k = some v) : hasKey l k = true := by
  induction l with
  | nil => simp [alGet?] at h
  | cons kv rest ih =>
    obtain ⟨a, b⟩ := kv
    rw [hasKey_cons]
    by_cases hak : (a == k) = true
    · simp [hak]
    · simp only [alGet?, hak, Bool.false_eq_true, ite_false] at h
      simp [hak, ih h]

theorem contentFirst_skip (defs : Json) (fuel : Nat) (pre ms2 : List Json)
    (h : ∀ x ∈ pre, pyContains "schema" x = .ok false) :
    contentFirst defs fuel (pre ++ ms2) = contentFirst defs fuel ms2 := by
  induction pre with
  | nil => rfl
  | cons x rest ih =>
    have hx := h x (by simp)
    simp only [List.cons_append, contentFirst, hx]
    exact ih (fun y hy => h y (by simp [hy]))

/-- C7: the schema lookup matches the status by its string form; inside the
located response it iterates the declared media types and takes the first
schema found, falling back to a directly attached `schema` key only when the
media types yield nothing; and it reports absence (not an error) when the
path, the method, the status or any schema payload is missing. -/
theorem getSchema_lookup_order :
    (∀ det fuel path method n, getSchema det fuel path method (.int n)
        = getSchema det fuel path method (.str (toString n)))
    ∧ (∀ defs fuel rkvs c ms pre m s rest,
        pyGetD (.obj rkvs) "content" (.obj []) = .ok c →
        pyValues c = .ok ms →
        ms = pre ++ m :: rest →
        (∀ x ∈ pre, pyContains "schema" x = .ok false) →
        pyContains "schema" m = .ok true →
        pyIndex m "schema" = .ok s →
        respSchema defs fuel (.obj rkvs) = (resolve defs fuel s).map some)
    ∧ (∀ defs fuel rkvs c ms s,
        pyGetD (.obj rkvs) "content" (.obj []) = .ok c →
        pyValues c = .ok ms →
        contentFirst defs fuel ms = .ok none →
        alGet? rkvs "schema" = some s →
        respSchema defs fuel (.obj rkvs) = (resolve defs fuel s).map some)
    ∧ (∀ defs fuel rkvs c ms,
        pyGetD (.obj rkvs) "content" (.obj []) = .ok c →
        pyValues c = .ok ms →
        contentFirst defs fuel ms = .ok none →
        hasKey rkvs "schema" = false →
        respSchema defs fuel (.obj rkvs) = .ok none)
    ∧ (∀ det fuel path method status pk,
        alGet? det.spec "paths" = some (.obj pk) →
        alGet? pk path = none →
        getSchema det fuel path method status = .ok none)
    ∧ (∀ det fuel path method status pk mk,
        alGet? det.spec "paths" = some (.obj pk) →
        alGet? pk path = some (.obj mk) →
        alGet? mk (strLower method) = none →
        getSchema det fuel path method status = .ok none)
    ∧ (∀ det fuel path method status pk mk ov rv,
        alGet? det.spec "paths" = some (.obj pk) →
        alGet? pk path = some (.obj mk) →
        alGet? mk (strLower method) = some (.obj ov) →
        pyFalsy (.obj ov) = false →
        alGet? ov "responses" = some (.obj rv) →
        alGet? rv status.toStr = none →
        getSchema det fuel path method status = .ok none)
    ∧ (∀ det fuel path method status pk mk ov rv resp,
        alGet? det.spec "paths" = some (.obj pk) →
        alGet? pk path = some (.obj mk) →
        alGet? mk (strLower method) = some (.obj ov) →
        pyFalsy (.obj ov) = false →
        alGet? ov "responses" = some (.obj rv) →
        alGet? rv status.toStr = some resp →
        pyFalsy resp = false →
        getSchema det fuel path method status = respSchema det.defs fuel resp) := by
  refine ⟨?_, ?_, ?_, ?_, ?_, ?_, ?_, ?_⟩
  · intro det fuel path method n
    rfl
  · intro defs fuel rkvs c ms pre m s rest hc hv hms hpre hm hs
    simp only [respSchema, hc, hv]
    rw [hms, contentFirst_skip defs fuel pre (m :: rest) hpre]
    simp only [contentFirst, hm, hs]
    cases hr : resolve defs fuel s with
    | error e => simp [Except.map]
    | ok r => simp [Except.map]
  · intro defs fuel rkvs c ms s hc hv hcf hsg
    simp only [respSchema, hc, hv, hcf]
    have hk : hasKey rkvs "schema" = true := hasKey_of_alGet? rkvs "schema" s hsg
    simp only [pyContains, hk, pyIndex, hsg]
    cases hr : resolve defs fuel s with
    | error e => simp [Except.map]
    | ok r => simp [Except.map]
  · intro defs fuel rkvs c ms hc hv hcf hnk
    simp only [respSchema, hc, hv, hcf, pyContains, hnk]
  · intro det fuel path method status pk h1 h2
    simp only [getSchema, h1, Option.getD_some, pyGetD, h2, Option.getD_none, pyGet?,
      alGet?]
  · intro det fuel path method status pk mk h1 h2 h3
    simp only [getSchema, h1, Option.getD_some, pyGetD, h2, pyGet?, h3]
  · intro det fuel path method status pk mk ov rv h1 h2 h3 h4 h5 h6
    simp only [getSchema, h1, Option.getD_some, pyGetD, h2, pyGet?, h3, h4,
      Bool.false_eq_true, if_false, h5, h6]
  · intro det fuel path method status pk mk ov rv resp h1 h2 h3 h4 h5 h6 h7
    simp only [getSchema, h1, Option.getD_some, pyGetD, h2, pyGet?, h3, h4,
      Bool.false_eq_true, if_false, h5, h6, h7]

theorem getSchema_lookup_order_witness :
    getSchema detBoth 3 "/both" "get" (.str "200")
      = .ok (some (.obj [("type", .str "integer")]))
    ∧ getSchema detBoth 3 "/both" "get" (.int 200)
        = getSchema detBoth 3 "/both" "get" (.str "200")
    ∧ getSchema detBoth 3 "/nope" "get" (.str "200") = .ok none := by
  obtain ⟨h1, h2, h3, h4, h5, h6, h7, h8⟩ := getSchema_lookup_order
  refine ⟨?_, ?_, ?_⟩
  · have hlink := h8 detBoth 3 "/both" "get" (.str "200") _ _ _ _ _
      rfl rfl rfl rfl rfl rfl rfl
    have hmed := h2 detBoth.defs 3
      [("content", .obj
          [("text/plain", .obj [("example", .str "x")]),
           ("application/json", .obj
            [("schema", .obj [("type", .str "integer")])])]),
       ("schema", .obj [("type", .str "string")])]
      _ _ [.obj [("example", .str "x")]]
      (.obj [("schema", .obj [("type", .str "integer")])])
      (.obj [("type", .str "integer")]) []
      rfl rfl rfl (by intro x hx; simp only [List.mem_singleton] at hx; subst hx; rfl)
      rfl rfl
    exact hlink.trans (hmed.trans (by rfl))
  · exact h1 detBoth 3 "/both" "get" 200
  · exact h5 detBoth 3 "/nope" "get" (.str "200") _ rfl rfl

/-! ### Cassette checking -/

theorem isObj_spec (j : Json) (h : isObj j = true) : ∃ o, j = .obj o := by
  cases j <;> simp [isObj] at h ⊢

theorem isStr_spec (j : Json) (h : isStr j = true) : ∃ s, j = .str s := by
  cases j <;> simp [isStr] at h ⊢

theorem pyGetD_obj (kvs : List (String × Json)) (k : String) (d : Json) :
    pyGetD (.obj kvs) k d = .ok (jValD (.obj kvs) k d) := rfl

theorem checkInteraction_ok (det : Detector) (v : Json → Json → Option String)
    (jl : String → Option Json) (up : String → String) (fuel : Nat)
    (age : ℚ) (maxA : Int) (i : Nat) (ix : Json)
    (hgood : goodInteraction ix = true)
    (hsch : ∀ p m, isOkE (getSchema det fuel p m (.str "200")) = true) :
    checkInteraction det v jl up fuel age maxA i ix
      = .ok (interactionReport det v jl up fuel age maxA i ix) := by
  simp only [goodInteraction, Bool.and_eq_true] at hgood
  obtain ⟨⟨⟨⟨⟨hobj, hreq⟩, hres⟩, huri⟩, hmet⟩, hbody⟩ := hgood
  obtain ⟨kvs, hkv⟩ := isObj_spec _ hobj
  subst hkv
  obtain ⟨rkvs, hreqv⟩ := isObj_spec _ hreq
  obtain ⟨skvs, hresv⟩ := isObj_spec _ hres
  rw [hreqv] at huri hmet
  rw [hresv] at hbody
  obtain ⟨uri, huriv⟩ := isStr_spec _ huri
  obtain ⟨met, hmetv⟩ := isStr_spec _ hmet
  obtain ⟨bkvs, hbodyv⟩ := isObj_spec _ hbody
  simp only [checkInteraction, interactionReport, pathOf, methodOf, bodyErrsOf, bodyOf,
    bodyStrOf, pyGetD_obj, hreqv, hresv, huriv, hmetv, hbodyv]
  cases hpb : parseBody jl (jValD (.obj bkvs) "string" (.str "")) with
  | none => simp
  | some b =>
    cases hgs : getSchema det fuel (up uri) (strLower met) (.str "200") with
    | error e =>
      have hok := hsch (up uri) (strLower met)
      rw [hgs] at hok
      simp [isOkE] at hok
    | ok schemaO =>
      simp only [schemaOf, hgs]

theorem mapIdxE_eq (f : Nat → Json → Except PyErr DriftReport)
    (g : Nat → Json → DriftReport) (l : List Json)
    (h : ∀ i ix, ix ∈ l → f i ix = .ok (g i ix)) :
    ∀ i0, mapIdxE f i0 l = .ok (mapIdxP g i0 l) := by
  induction l with
  | nil => intro i0; rfl
  | cons ix rest ih =>
    intro i0
    simp only [mapIdxE, mapIdxP, h i0 ix (by simp),
      ih (fun i x hx => h i x (by simp [hx])) (i0 + 1)]

theorem mapIdxP_length {α : Type} (g : Nat → Json → α) :
    ∀ i0 l, (mapIdxP g i0 l).length = l.length := by
  intro i0 l
  induction l generalizing i0 with
  | nil => rfl
  | cons ix rest ih => simp [mapIdxP, ih]

theorem mapIdxP_getElem? {α : Type} (g : Nat → Json → α) :
    ∀ (l : List Json) (i0 j : Nat),
      (mapIdxP g i0 l)[j]? = (l[j]?).map (g (i0 + j)) := by
  intro l
  induction l with
  | nil => intro i0 j; simp [mapIdxP]
  | cons ix rest ih =>
    intro i0 j
    cases j with
    | zero => simp [mapIdxP]
    | succ j =>
      simp only [mapIdxP, List.getElem?_cons_succ]
      rw [ih (i0 + 1) j]
      have harith : i0 + 1 + j = i0 + (j + 1) := by omega
      rw [harith]

/-- The central success equation of `check_cassette`: on a document whose
interactions are well-shaped and a detector whose lookups do not raise, the
loop produces exactly the per-interaction findings, in order. -/
theorem checkCassette_ok (det : Detector) (v : Json → Json → Option String)
    (jl : String → Option Json) (up : String → String) (fuel : Nat)
    (age : ℚ) (maxA : Int) (doc : Json) (ixs : List Json)
    (hdoc : pyGetD doc "interactions" (.arr []) = .ok (.arr ixs))
    (hgood : ∀ ix ∈ ixs, goodInteraction ix = true)
    (hsch : ∀ p m, isOkE (getSchema det fuel p m (.str "200")) = true) :
    checkCassette det v jl up fuel age maxA doc
      = .ok (mapIdxP (interactionReport det v jl up fuel age maxA) 0 ixs) := by
  simp only [checkCassette, hdoc, pyIter]
  exact mapIdxE_eq _ _ ixs
    (fun i ix hix => checkInteraction_ok det v jl up fuel age maxA i ix (hgood ix hix) hsch) 0

/-- C2: a cassette document holding a sequence of N interactions yields
exactly N findings, the finding at position i derived from the interaction
at position i, with every per-interaction condition recorded in that
finding's errors rather than raised (the call returns `ok`). -/
theorem checkCassette_one_finding_per_interaction (det : Detector)
    (v : Json → Json → Option String) (jl : String → Option Json)
    (up : String → String) (fuel : Nat) (age : ℚ) (maxA : Int)
    (doc : Json) (ixs : List Json)
    (hdoc : pyGetD doc "interactions" (.arr []) = .ok (.arr ixs))
    (hgood : ∀ ix ∈ ixs, goodInteraction ix = true)
    (hsch : ∀ p m, isOkE (getSchema det fuel p m (.str "200")) = true) :
    checkCassette det v jl up fuel age maxA doc
      = .ok (mapIdxP (interactionReport det v jl up fuel age maxA) 0 ixs)
    ∧ (mapIdxP (interactionReport det v jl up fuel age maxA) 0 ixs).length = ixs.length
    ∧ ∀ j, (mapIdxP (interactionReport det v jl up fuel age maxA) 0 ixs)[j]?
        = (ixs[j]?).map (interactionReport det v jl up fuel age maxA j) := by
  refine ⟨checkCassette_ok det v jl up fuel age maxA doc ixs hdoc hgood hsch,
    mapIdxP_length _ 0 ixs, ?_⟩
  intro j
  simpa using mapIdxP_getElem? (interactionReport det v jl up fuel age maxA) ixs 0 j

theorem checkCassette_one_finding_per_interaction_witness :
    checkCassette detEmpty vNone jlNone upId 3 1 30 docTwo
      = .ok (mapIdxP (interactionReport detEmpty vNone jlNone upId 3 1 30) 0
          [ixEmptyBody, ixBadBody])
    ∧ (mapIdxP (interactionReport detEmpty vNone jlNone upId 3 1 30) 0
        [ixEmptyBody, ixBadBody]).length = 2 := by
  have h := checkCassette_one_finding_per_interaction detEmpty vNone jlNone upId 3 1 30
    docTwo [ixEmptyBody, ixBadBody] rfl
    (by
      intro ix hix
      simp only [List.mem_cons, List.not_mem_nil, or_false] at hix
      rcases hix with rfl | rfl
      · rfl
      · rfl)
    (fun p m => rfl)
  exact ⟨h.1, h.2.1.trans rfl⟩

/-- C5: the file age is computed once per file and shared — the embedding
takes it as the single parameter `age` used by every interaction — and when
it exceeds `maxA`, every interaction's finding starts with the violation
`Cassette age Nd exceeds Md limit` (age rounded by the formatting in
`fmtF0`), prepended to the age-independent structural violations. -/
theorem checkCassette_age_violation (det : Detector)
    (v : Json → Json → Option String) (jl : String → Option Json)
    (up : String → String) (fuel : Nat) (age : ℚ) (maxA : Int)
    (doc : Json) (ixs : List Json)
    (hdoc : pyGetD doc "interactions" (.arr []) = .ok (.arr ixs))
    (hgood : ∀ ix ∈ ixs, goodInteraction ix = true)
    (hsch : ∀ p m, isOkE (getSchema det fuel p m (.str "200")) = true)
    (hage : (maxA : ℚ) < age) :
    checkCassette det v jl up fuel age maxA doc
      = .ok (mapIdxP (interactionReport det v jl up fuel age maxA) 0 ixs)
    ∧ ∀ (j : Nat) (ix : Json), ixs[j]? = some ix →
        (mapIdxP (interactionReport det v jl up fuel age maxA) 0 ixs)[j]?
          = some ⟨tagOf j (methodOf ix) (pathOf up ix), pathOf up ix, methodOf ix,
              ageMsg age maxA :: bodyErrsOf det v jl up fuel ix⟩ := by
  refine ⟨checkCassette_ok det v jl up fuel age maxA doc ixs hdoc hgood hsch, ?_⟩
  intro j ix hj
  have hg := mapIdxP_getElem? (interactionReport det v jl up fuel age maxA) ixs 0 j
  rw [hj] at hg
  simp only [Nat.zero_add, Option.map_some] at hg
  rw [hg]
  simp [interactionReport, hage]

theorem checkCassette_age_violation_witness :
    checkCassette detEmpty vNone jlNone upId 3 90 30 docTwo
      = .ok (mapIdxP (interactionReport detEmpty vNone jlNone upId 3 90 30) 0
          [ixEmptyBody, ixBadBody])
    ∧ (mapIdxP (interactionReport detEmpty vNone jlNone upId 3 90 30) 0
        [ixEmptyBody, ixBadBody])[0]?
      = some ⟨"cassette[0]:GET https://api.test/users", "https://api.test/users", "get",
          ["Cassette age 90d exceeds 30d limit"]⟩ := by
  have h := checkCassette_age_violation detEmpty vNone jlNone upId 3 90 30
    docTwo [ixEmptyBody, ixBadBody] rfl
    (by
      intro ix hix
      simp only [List.mem_cons, List.not_mem_nil, or_false] at hix
      rcases hix with rfl | rfl
      · rfl
      · rfl)
    (fun p m => rfl)
    (by decide)
  exact ⟨h.1, (h.2 0 ixEmptyBody rfl).trans (by rfl)⟩

/-- C9: an interaction whose response body string is empty or unparsable is
skipped by the structural checks — no exception is raised and its finding
carries only the (possible) age violation, nothing body-related. -/
theorem checkCassette_unparsable_body (det : Detector)
    (v : Json → Json → Option String) (jl : String → Option Json)
    (up : String → String) (fuel : Nat) (age : ℚ) (maxA : Int)
    (doc : Json) (ixs : List Json) (j : Nat) (ix : Json) (s : String)
    (hdoc : pyGetD doc "interactions" (.arr []) = .ok (.arr ixs))
    (hgood : ∀ ix2 ∈ ixs, goodInteraction ix2 = true)
    (hsch : ∀ p m, isOkE (getSchema det fuel p m (.str "200")) = true)
    (hj : ixs[j]? = some ix)
    (hbs : bodyStrOf ix = .str s)
    (hbad : s = "" ∨ jl s = none) :
    checkCassette det v jl up fuel age maxA doc
      = .ok (mapIdxP (interactionReport det v jl up fuel age maxA) 0 ixs)
    ∧ (mapIdxP (interactionReport det v jl up fuel age maxA) 0 ixs)[j]?
        = some ⟨tagOf j (methodOf ix) (pathOf up ix), pathOf up ix, methodOf ix,
            if (maxA : ℚ) < age then [ageMsg age maxA] else []⟩ := by
  refine ⟨checkCassette_ok det v jl up fuel age maxA doc ixs hdoc hgood hsch, ?_⟩
  have hb : bodyOf jl ix = none := by
    simp only [bodyOf, parseBody, hbs]
    rcases hbad with rfl | hjl
    · simp [pyFalsy]
    · by_cases hse : s = ""
      · subst hse
        simp [pyFalsy]
      · have hsf : (s == "") = false := by
          simpa using hse
        simp [pyFalsy, hsf, hjl]
  have hberrs : bodyErrsOf det v jl up fuel ix = [] := by
    simp [bodyErrsOf, hb]
  have hg := mapIdxP_getElem? (interactionReport det v jl up fuel age maxA) ixs 0 j
  rw [hj] at hg
  simp only [Nat.zero_add, Option.map_some] at hg
  rw [hg]
  simp [interactionReport, hberrs]

theorem checkCassette_unparsable_body_witness :
    checkCassette detEmpty vNone jlNone upId 3 90 30 docTwo
      = .ok (mapIdxP (interactionReport detEmpty vNone jlNone upId 3 90 30) 0
          [ixEmptyBody, ixBadBody])
    ∧ (mapIdxP (interactionReport detEmpty vNone jlNone upId 3 90 30) 0
        [ixEmptyBody, ixBadBody])[1]?
      = some ⟨"cassette[1]:GET https://api.test/users", "https://api.test/users", "get",
          ["Cassette age 90d exceeds 30d limit"]⟩ := by
  have h := checkCassette_unparsable_body detEmpty vNone jlNone upId 3 90 30
    docTwo [ixEmptyBody, ixBadBody] 1 ixBadBody "not json" rfl
    (by
      intro ix2 hix
      simp only [List.mem_cons, List.not_mem_nil, or_false] at hix
      rcases hix with rfl | rfl
      · rfl
      · rfl)
    (fun p m => rfl)
    rfl rfl (Or.inr rfl)
  exact ⟨h.1, h.2.trans (by rfl)⟩

/-! ### VCR cassette findings (modelled from the spec) -/

theorem alGet?_keysDiff (m e : List String) :
    alGet? ((if m.isEmpty then [] else [("missing", m)])
      ++ (if e.isEmpty then [] else [("extra", e)])) "missing"
      = (if m.isEmpty then none else some m)
    ∧ alGet? ((if m.isEmpty then [] else [("missing", m)])
      ++ (if e.isEmpty then [] else [("extra", e)])) "extra"
      = (if e.isEmpty then none else some e) := by
  cases hm : m.isEmpty <;> cases he : e.isEmpty <;>
    simp only [hm, he, Bool.false_eq_true, eq_self_iff_true, if_true, if_false] <;>
    exact ⟨rfl, rfl⟩

/-- C1: every cassette-originated finding of the modelled
`VCRCassetteDriftChecker.check` carries, beyond name/path/method/errors, the
cassette file's base name, the interaction's zero-based index, the status
code as a string, the resolved schema used, and a key diff mapping whose
`missing` entry lists the schema-required names absent from the body's
top-level keys (in declared order) and whose `extra` entry lists the body's
top-level keys absent from the declared properties, each entry omitted
entirely when its list is empty. -/
theorem vcrCheck_finding_fields (det : Detector) (v : Json → Json → Option String)
    (jl : String → Option Json) (up : String → String) (fuel : Nat)
    (cpath : String) (age : ℚ) (maxA : Int) (doc : Json)
    (j : Nat) (ix : Json)
    (hj : (vcrInteractions doc)[j]? = some ix) :
    ∃ r, (vcrCheck det v jl up fuel cpath age maxA doc)[j]? = some r
      ∧ r.cassetteFile = baseName cpath
      ∧ r.interactionIndex = j
      ∧ r.statusCode = statusCodeOf ix
      ∧ r.expectedSchema
          = schemaOf det fuel (pathOf up ix) (methodOf ix) (statusCodeOf ix)
      ∧ ∀ b s, bodyOf jl ix = some b →
          schemaOf det fuel (pathOf up ix) (methodOf ix) (statusCodeOf ix) = some s →
          alGet? r.actualKeysDiff "missing"
            = (if ((vcrRequired s).filter (fun k => !((topKeys b).contains k))).isEmpty
               then none
               else some ((vcrRequired s).filter (fun k => !((topKeys b).contains k))))
          ∧ alGet? r.actualKeysDiff "extra"
            = (if ((topKeys b).filter (fun k => !((vcrProps s).contains k))).isEmpty
               then none
               else some ((topKeys b).filter (fun k => !((vcrProps s).contains k)))) := by
  refine ⟨vcrInteraction det v jl up fuel (baseName cpath) age maxA j ix, ?_, rfl, rfl,
    rfl, rfl, ?_⟩
  · have hg := mapIdxP_getElem?
      (vcrInteraction det v jl up fuel (baseName cpath) age maxA) (vcrInteractions doc) 0 j
    rw [hj] at hg
    simpa [vcrCheck] using hg
  · intro b s hb hs
    have hkd : (vcrInteraction det v jl up fuel (baseName cpath) age maxA j ix).actualKeysDiff
        = vcrKeysDiff s b := by
      simp [vcrInteraction, hb, hs]
    rw [hkd]
    exact alGet?_keysDiff ((vcrRequired s).filter (fun k => !((topKeys b).contains k)))
      ((topKeys b).filter (fun k => !((vcrProps s).contains k)))

theorem vcrCheck_finding_fields_witness :
    alGet? (((vcrCheck detTest vNone jlTwo upId 5 "fixtures/c.yaml" 1 30
        docVcr)[0]?.getD emptyResult).actualKeysDiff) "missing" = some ["id", "email"]
    ∧ alGet? (((vcrCheck detTest vNone jlTwo upId 5 "fixtures/c.yaml" 1 30
        docVcr)[0]?.getD emptyResult).actualKeysDiff) "extra" = none
    ∧ alGet? (((vcrCheck detTest vNone jlTwo upId 5 "fixtures/c.yaml" 1 30
        docVcr)[1]?.getD emptyResult).actualKeysDiff) "extra"
        = some ["role", "avatar_url"]
    ∧ ((vcrCheck detTest vNone jlTwo upId 5 "fixtures/c.yaml" 1 30
        docVcr)[0]?.getD emptyResult).cassetteFile = "c.yaml"
    ∧ ((vcrCheck detTest vNone jlTwo upId 5 "fixtures/c.yaml" 1 30
        docVcr)[1]?.getD emptyResult).interactionIndex = 1
    ∧ ((vcrCheck detTest vNone jlTwo upId 5 "fixtures/c.yaml" 1 30
        docVcr)[0]?.getD emptyResult).statusCode = "200" := by
  obtain ⟨r0, h0g, h0cf, h0i, h0sc, h0es, h0kd⟩ :=
    vcrCheck_finding_fields detTest vNone jlTwo upId 5 "fixtures/c.yaml" 1 30 docVcr
      0 ixAlice rfl
  obtain ⟨r1, h1g, h1cf, h1i, h1sc, h1es, h1kd⟩ :=
    vcrCheck_finding_fields detTest vNone jlTwo upId 5 "fixtures/c.yaml" 1 30 docVcr
      1 ixExtra rfl
  have hr0 : ((vcrCheck detTest vNone jlTwo upId 5 "fixtures/c.yaml" 1 30
      docVcr)[0]?.getD emptyResult) = r0 := by rw [h0g]; rfl
  have hr1 : ((vcrCheck detTest vNone jlTwo upId 5 "fixtures/c.yaml" 1 30
      docVcr)[1]?.getD emptyResult) = r1 := by rw [h1g]; rfl
  have hkd0 := h0kd bodyAlice userSchema rfl rfl
  have hkd1 := h1kd bodyExtra userSchema rfl rfl
  rw [hr0, hr1]
  refine ⟨hkd0.1.trans (by rfl), hkd0.2.trans (by rfl), hkd1.2.trans (by rfl),
    h0cf.trans (by rfl), h1i, h0sc.trans (by rfl)⟩
